import Mathlib

/-!
Verification of the WireGuard split-tunnel action (repository rohittp0/wiregaurd).

The main implementation lives in src/src/index.ts; two near-duplicate variants of
the same program live in src/unnamed/part_000 and src/unnamed/part_001.  The
TypeScript code is shallowly embedded: every externally observable action
(command execution, informational log, warning log, fatal failure) is an
`Event`, and all external nondeterminism (platform, action inputs, exit codes
of executed commands, DNS results, ping results) is captured by an environment
record `Env`.  Each `async` function of the source becomes a pure Lean function
from `Env` (plus its source arguments) to its result together with the list of
events it emits; a TypeScript exception is an `Except.error` carrying the
thrown message.
-/

namespace Wg

/-- Observable step of one invocation: an informational log line
(`core.info`), a warning (`core.warning`), an execution of an external command
(`exec.exec` / `exec.getExecOutput`, recorded as program plus argument list),
or the fatal failure signal (`core.setFailed`). -/
inductive Event where
  | info (msg : String)
  | warning (msg : String)
  | cmd (prog : String) (args : List String)
  | failed (msg : String)
  deriving DecidableEq

/-- Settlement of one underlying `dns.resolve4` / `dns.resolve6` promise: it
either fulfills with a list of address strings after `ms` milliseconds, or
rejects with an error carrying a `code` (such as ENOTFOUND or ENODATA) and a
`msg` after `ms` milliseconds. -/
inductive DnsOutcome where
  | ok (addrs : List String) (ms : Nat)
  | err (code : String) (msg : String) (ms : Nat)
  deriving DecidableEq

/-- Settlement time of a DNS promise, whichever way it settles. -/
def dnsMs : DnsOutcome → Nat
  | DnsOutcome.ok _ ms => ms
  | DnsOutcome.err _ _ ms => ms

/-- Outcome of one ping attempt in `testConnectivity`: the `exec.exec` promise
settles within the 10 s ceiling (`done` — the exit code is ignored because of
`ignoreReturnCode`), or the attempt raises (`hung m`: the outer 10 s race timer
rejects with "Ping timeout", or the process could not be started; `m` is the
raised message). -/
inductive ProbeOutcome where
  | done
  | hung (msg : String)
  deriving DecidableEq

/-- Final signal of one invocation of the action: success, or `core.setFailed`
with a message. -/
inductive Outcome where
  | success
  | failed (msg : String)
  deriving DecidableEq

/-- Environment of one invocation: everything the program observes from
outside.  `inputs` models `core.getInput` (empty string when the input is not
supplied); `execOk argv` tells whether the external command `argv` exits with
code 0; `dns4` / `dns6` give the settlement of the per-domain DNS promises;
`ping` gives the outcome of the n-th ping attempt; `tmpDir` is the temporary
directory created by `fs.mkdtemp`. -/
structure Env where
  platformIsLinux : Bool
  inputs : String → String
  execOk : List String → Bool
  dns4 : String → DnsOutcome
  dns6 : String → DnsOutcome
  ping : Nat → ProbeOutcome
  tmpDir : String

/-- Replace only the ping oracle of an environment. -/
def withPing (env : Env) (f : Nat → ProbeOutcome) : Env :=
  Env.mk env.platformIsLinux env.inputs env.execOk env.dns4 env.dns6 f env.tmpDir

/-- Replace only the DNS oracles of an environment. -/
def withDns (env : Env) (f4 f6 : String → DnsOutcome) : Env :=
  Env.mk env.platformIsLinux env.inputs env.execOk f4 f6 env.ping env.tmpDir

/-- Embeds `exec.exec(prog, args)` without `ignoreReturnCode`: the command is
executed (one `cmd` event); a non-zero exit code makes the promise reject with
the library's "process failed" message. -/
def execExec (env : Env) (prog : String) (args : List String) :
    Except String Unit × List Event :=
  (if env.execOk (prog :: args) then Except.ok ()
   else Except.error (("The process ") ++ prog ++ (" failed")),
   [Event.cmd prog args])

/-- Embeds `ip.includes(":")` from the source: the address string contains the
colon character. -/
def includesColon (s : String) : Bool :=
  s.data.contains (':')

/-- Embeds `checkInterfaceExists` (src/src/index.ts lines 9-12): run
`ip link show iface` with `ignoreReturnCode` and report whether it exited 0. -/
def checkInterfaceExists (env : Env) (iface : String) : Bool :=
  env.execOk [("ip"), ("link"), ("show"), iface]

/-- Argument list of the route command built by `addSingleRoute`
(src/src/index.ts lines 14-20): `":" ∈ ip` selects the IPv6 variant `ip -6`
and the `/128` host mask, otherwise the plain `ip` command and `/32`. -/
def routeArgs (ip iface : String) : List String :=
  let isIpv6 := includesColon ip
  let cidr := if isIpv6 then ip ++ ("/128") else ip ++ ("/32")
  let ipCommand := if isIpv6 then [("ip"), ("-6")] else [("ip")]
  ipCommand ++ [("route"), ("add"), cidr, ("dev"), iface]

/-- Embeds `addSingleRoute` (src/src/index.ts lines 14-20): execute
`sudo ip [-6] route add cidr dev iface`; a non-zero exit throws. -/
def addSingleRoute (env : Env) (ip iface : String) :
    Except String Unit × List Event :=
  execExec env ("sudo") (routeArgs ip iface)

/-- Whether the route-add attempt of `addSingleRoute` for `ip` on `iface`
succeeds in environment `env`. -/
def routeOk (env : Env) (ip iface : String) : Bool :=
  env.execOk (("sudo") :: routeArgs ip iface)

/-- Embeds the helper `resolveWithTimeout` (src/src/index.ts lines 26-31):
`Promise.race` of the DNS promise against a `timeoutMs` timer.  `none` means
the timer fired first (the helper resolves with `null`); `some (Except.ok _)`
and `some (Except.error _)` mean the DNS promise settled first, fulfilled or
rejected (the pair carries the error's code and message). -/
def resolveWithTimeout (o : DnsOutcome) (timeoutMs : Nat) :
    Option (Except (String × String) (List String)) :=
  match o with
  | DnsOutcome.ok addrs ms =>
    if ms < timeoutMs then some (Except.ok addrs) else none
  | DnsOutcome.err c m ms =>
    if ms < timeoutMs then some (Except.error (c, m)) else none

/-- Milliseconds spent awaiting `resolveWithTimeout o 5000`: the race settles
as soon as the first of the DNS promise (at `dnsMs o`) and the 5000 ms timer
settles. -/
def resolveWaitMs (o : DnsOutcome) : Nat :=
  min (dnsMs o) 5000

/-- Embeds one family block of `resolveDomainIPs` (src/src/index.ts
lines 33-59; both blocks are textually identical up to the family label):
race the lookup against 5000 ms; a timeout logs a "timed out" warning and
contributes nothing; a rejection whose code is neither ENOTFOUND nor ENODATA
logs a "Failed to resolve" warning and contributes nothing; ENOTFOUND and
ENODATA are silent and contribute nothing. -/
def resolveFamily (label domain : String) (o : DnsOutcome) :
    List String × List Event :=
  match resolveWithTimeout o 5000 with
  | some (Except.ok addrs) => (addrs, [])
  | none =>
    ([], [Event.warning (label ++ (" resolution for ") ++ domain ++ (" timed out"))])
  | some (Except.error cm) =>
    if cm.1 ≠ ("ENOTFOUND") ∧ cm.1 ≠ ("ENODATA") then
      ([], [Event.warning (("Failed to resolve ") ++ label ++ (" for ") ++ domain
             ++ (": ") ++ cm.2)])
    else ([], [])

/-- Embeds `resolveDomainIPs` (src/src/index.ts lines 22-62): resolve IPv4 and
IPv6 independently (each raced against 5000 ms) and push the results of both,
IPv4 first, into one list; every failure is caught inside the function. -/
def resolveDomainIPs (env : Env) (domain : String) : List String × List Event :=
  let r4 := resolveFamily ("IPv4") domain (env.dns4 domain)
  let r6 := resolveFamily ("IPv6") domain (env.dns6 domain)
  (r4.1 ++ r6.1, r4.2 ++ r6.2)

/-- Specification-side description of one family's contribution (spec section
4.2): the addresses a family contributes are exactly those of a lookup that
fulfilled before the 5000 ms timeout; every other case contributes nothing. -/
def specFamilyAddrs (o : DnsOutcome) : List String :=
  match o with
  | DnsOutcome.ok addrs ms => if ms < 5000 then addrs else []
  | DnsOutcome.err _ _ _ => []

/-- Specification-side description of when one family's lookup surfaces a
warning (spec section 4.2): a timeout, or a rejection (before the timeout)
whose code is not a not-found / no-data code.  A lookup that fulfills in time,
or rejects in time with ENOTFOUND / ENODATA, is silent. -/
def specFamilyWarns (o : DnsOutcome) : Bool :=
  match o with
  | DnsOutcome.ok _ ms => if ms < 5000 then false else true
  | DnsOutcome.err c _ ms =>
    if ms < 5000 then (if c ≠ ("ENOTFOUND") ∧ c ≠ ("ENODATA") then true else false)
    else true

/-- Splits a character list at every comma, JavaScript `split(",")` style: the
characters between consecutive commas form one field; `n` commas give `n + 1`
fields; the empty list gives one empty field.  `acc` holds the characters of
the current field in reverse. -/
def splitCommaAux : List Char → List Char → List (List Char)
  | [], acc => [acc.reverse]
  | c :: rest, acc =>
    if c = (',') then acc.reverse :: splitCommaAux rest []
    else splitCommaAux rest (c :: acc)

/-- Embeds `input.split(",")` on the character list of the input string. -/
def splitComma (cs : List Char) : List (List Char) :=
  splitCommaAux cs []

/-- Embeds JavaScript `String.prototype.trim` on a character list: drop
leading and trailing whitespace characters. -/
def trimChars (cs : List Char) : List Char :=
  (((cs.dropWhile Char.isWhitespace).reverse).dropWhile Char.isWhitespace).reverse

/-- Embeds `parseInputList` (src/src/index.ts lines 220-222):
`input.split(",").map(item => item.trim()).filter(item => item)` — split at
commas, trim every field, keep the non-empty ones (a non-empty string is the
only truthy case of the filter predicate). -/
def parseInputList (input : String) : List String :=
  ((((splitComma input.data).map trimChars).filter
      (fun t => !t.isEmpty)).map String.mk)

/-- Loop body of `addRoutesForIPs` (src/src/index.ts lines 97-106): for each
address, log the route being added, attempt `addSingleRoute`; on success
increment the count, on failure log a warning and continue with the rest. -/
def ipsLoop (env : Env) (iface : String) : List String → Nat × List Event
  | [] => (0, [])
  | ip :: rest =>
    let cidr := if includesColon ip then ip ++ ("/128") else ip ++ ("/32")
    let attempt := addSingleRoute env ip iface
    let tail := ipsLoop env iface rest
    let head := Event.info (("Adding route for ") ++ cidr ++ (" via ") ++ iface)
                  :: attempt.2
    match attempt.1 with
    | Except.ok _ => (tail.1 + 1, head ++ tail.2)
    | Except.error m =>
      (tail.1,
       head ++ [Event.warning (("Failed to add route for ") ++ ip ++ (": ") ++ m)]
            ++ tail.2)

/-- Embeds `addRoutesForIPs` (src/src/index.ts lines 91-110): nothing on an
empty list; otherwise a banner, the per-address loop, and the final count
line.  The returned number is the `routeCount` the source logs. -/
def addRoutesForIPs (env : Env) (ips : List String) (iface : String) :
    Nat × List Event :=
  if ips.isEmpty then (0, [])
  else
    let l := ipsLoop env iface ips
    (l.1,
     Event.info (("Adding routes for ") ++ toString ips.length ++ (" IP address(es)..."))
       :: l.2
       ++ [Event.info (("Added ") ++ toString l.1 ++ (" route(s) for IPs."))])

/-- Inner loop of `addRoutesForDomains` (src/src/index.ts lines 75-84): for
each resolved address of `domain`, attempt the route; a success is counted and
its address appended to the collected list, a failure logs a warning and the
loop continues. -/
def domainIpLoop (env : Env) (iface domain : String) :
    List String → Nat × List String × List Event
  | [] => (0, [], [])
  | ip :: rest =>
    let attempt := addSingleRoute env ip iface
    let tail := domainIpLoop env iface domain rest
    let head := Event.info (("Adding route for ") ++ domain ++ (" (") ++ ip
                  ++ (") via ") ++ iface) :: attempt.2
    match attempt.1 with
    | Except.ok _ => (tail.1 + 1, ip :: tail.2.1, head ++ tail.2.2)
    | Except.error m =>
      (tail.1, tail.2.1,
       head ++ [Event.warning (("Failed to add route for ") ++ ip ++ (": ") ++ m)]
            ++ tail.2.2)

/-- Outer loop of `addRoutesForDomains` (src/src/index.ts lines 71-85):
resolve each domain in input order, then run the inner per-address loop on the
resolved addresses in resolution order. -/
def domainLoop (env : Env) (iface : String) :
    List String → Nat × List String × List Event
  | [] => (0, [], [])
  | d :: rest =>
    let r := resolveDomainIPs env d
    let inner := domainIpLoop env iface d r.1
    let tail := domainLoop env iface rest
    (inner.1 + tail.1,
     inner.2.1 ++ tail.2.1,
     (Event.info (("Resolving ") ++ d ++ ("...")) :: r.2 ++ inner.2.2) ++ tail.2.2)

/-- Embeds `addRoutesForDomains` (src/src/index.ts lines 64-89): nothing on an
empty domain list; otherwise a banner, the nested loops, and the final count
line.  The returned list is `allIPs`: the domain-derived addresses whose route
was added successfully, in processing order. -/
def addRoutesForDomains (env : Env) (domains : List String) (iface : String) :
    List String × List Event :=
  if domains.isEmpty then ([], [])
  else
    let l := domainLoop env iface domains
    (l.2.1,
     Event.info (("Adding routes for ") ++ toString domains.length ++ (" domain(s)..."))
       :: l.2.2
       ++ [Event.info (("Added ") ++ toString l.1 ++ (" route(s) for domains."))])

/-- Embeds `addRoutes` (src/src/index.ts lines 135-139): run the domain batch,
then the literal-address batch, and return the concatenation of the
domain-derived successful addresses with the full literal input list. -/
def addRoutes (env : Env) (domains ips : List String) (iface : String) :
    List String × List Event :=
  let d := addRoutesForDomains env domains iface
  let i := addRoutesForIPs env ips iface
  (d.1 ++ ips, d.2 ++ i.2)

/-- Loop of `testConnectivity` (src/src/index.ts lines 117-132) over the
sampled addresses, `k` being the index of the next attempt in `env.ping`: log,
choose ping6 for addresses containing a colon, issue the ping (exit code
ignored) raced against a 10 s timer; a raced-out or failed attempt logs a
warning and the loop continues. -/
def pingLoop (env : Env) (k : Nat) : List String → List Event
  | [] => []
  | ip :: rest =>
    let pingCmd := if includesColon ip then ("ping6") else ("ping")
    let head := [Event.info (("Pinging ") ++ ip ++ ("...")),
                 Event.cmd pingCmd [("-c"), ("2"), ("-W"), ("3"), ip]]
    let tail := pingLoop env (k + 1) rest
    match env.ping k with
    | ProbeOutcome.done => head ++ tail
    | ProbeOutcome.hung m =>
      head ++ [Event.warning (("Ping test for ") ++ ip ++ (" failed or timed out: ") ++ m)]
           ++ tail

/-- Embeds `testConnectivity` (src/src/index.ts lines 112-133): nothing on an
empty list; otherwise a banner and the ping loop over `ips.slice(0, 3)` — at
most the first three addresses. -/
def testConnectivity (env : Env) (ips : List String) : List Event :=
  if ips.isEmpty then []
  else Event.info ("Testing connectivity to routed IPs...") :: pingLoop env 0 (ips.take 3)

/-- Embeds `installWireGuard` (src/src/index.ts lines 141-144). -/
def installWireGuard (env : Env) : Except String Unit × List Event :=
  let e := execExec env ("sudo") [("apt-get"), ("install"), ("-y"), ("wireguard")]
  (e.1, Event.info ("Installing WireGuard...") :: e.2)

/-- Embeds `setupWireGuardConfig` (src/src/index.ts lines 146-170).  The text
processing of the decoded configuration (base64 decode, optional removal of
lines starting with "dns", temp-file write) mutates no observable state in
this model; the observable steps are the `cp` to /etc/wireguard and the
`chmod 600`, either of which throws on a non-zero exit. -/
def setupWireGuardConfig (env : Env) (config iface : String) (stripDns : Bool) :
    Except String Unit × List Event :=
  let tmpConf := env.tmpDir ++ ("/") ++ iface ++ (".conf")
  let etcConf := ("/etc/wireguard/") ++ iface ++ (".conf")
  let strip := if stripDns then
                 [Event.info ("Stripping DNS configuration to preserve system DNS...")]
               else []
  let c := execExec env ("sudo") [("cp"), tmpConf, etcConf]
  match c.1 with
  | Except.error m => (Except.error m, strip ++ c.2)
  | Except.ok _ =>
    let h := execExec env ("sudo") [("chmod"), ("600"), etcConf]
    (h.1, strip ++ c.2 ++ h.2)

/-- Embeds `startWireGuardInterface` (src/src/index.ts lines 172-180):
`wg-quick up` (throws on failure), then the logged 5 s stabilization wait. -/
def startWireGuardInterface (env : Env) (iface : String) :
    Except String Unit × List Event :=
  let u := execExec env ("sudo") [("wg-quick"), ("up"), iface]
  match u.1 with
  | Except.error m =>
    (Except.error m,
     Event.info (("Starting WireGuard interface '") ++ iface ++ ("'...")) :: u.2)
  | Except.ok _ =>
    (Except.ok (),
     Event.info (("Starting WireGuard interface '") ++ iface ++ ("'...")) :: u.2
       ++ [Event.info (("WireGuard interface '") ++ iface ++ ("' is up.")),
           Event.info ("Waiting for tunnel to stabilize...")])

/-- Embeds `setupWireGuard` (src/src/index.ts lines 182-186): install, write
the configuration, bring the interface up; the first failure aborts the
sequence and propagates. -/
def setupWireGuard (env : Env) (config iface : String) (stripDns : Bool) :
    Except String Unit × List Event :=
  let i := installWireGuard env
  match i.1 with
  | Except.error m => (Except.error m, i.2)
  | Except.ok _ =>
    let c := setupWireGuardConfig env config iface stripDns
    match c.1 with
    | Except.error m => (Except.error m, i.2 ++ c.2)
    | Except.ok _ =>
      let s := startWireGuardInterface env iface
      (s.1, i.2 ++ c.2 ++ s.2)

/-- Embeds `handleAddRouteMode` (src/src/index.ts lines 188-204): with neither
domains nor addresses, only a warning; otherwise the route batches followed,
when the combined list is non-empty, by the connectivity test.  Nothing in
this path can throw, so the function returns only its events. -/
def handleAddRouteMode (env : Env) (domains ips : List String) (iface : String) :
    List Event :=
  let intro := Event.info (("WireGuard interface '") ++ iface
                 ++ ("' already exists. Adding routes..."))
  if domains.isEmpty && ips.isEmpty then
    [intro, Event.warning ("Interface exists but no domains or IPs specified. Nothing to do.")]
  else
    let r := addRoutes env domains ips iface
    let t := if r.1.isEmpty then [] else testConnectivity env r.1
    intro :: r.2 ++ t ++ [Event.info ("Route addition complete.")]

/-- Embeds `handleSetupMode` (src/src/index.ts lines 206-218): tunnel
bring-up, and only on its success the route batches and the connectivity
test; a bring-up failure propagates. -/
def handleSetupMode (env : Env) (config : String) (domains ips : List String)
    (iface : String) (stripDns : Bool) : Except String Unit × List Event :=
  let intro := Event.info ("Setting up WireGuard interface...")
  let su := setupWireGuard env config iface stripDns
  match su.1 with
  | Except.error m => (Except.error m, intro :: su.2)
  | Except.ok _ =>
    let r := addRoutes env domains ips iface
    let t := if r.1.isEmpty then [] else testConnectivity env r.1
    (Except.ok (),
     intro :: su.2 ++ r.2 ++ t ++ [Event.info ("WireGuard setup complete.")])

/-- Interface name used by `run`: the `iface` input, defaulting to wg0 when
the input is empty (`core.getInput("iface") || "wg0"`). -/
def ifaceName (env : Env) : String :=
  if env.inputs ("iface") = ("") then ("wg0") else env.inputs ("iface")

/-- Outcome of `run`'s top-level try/catch around the setup path: no exception
is success, an exception `m` becomes `setFailed("WireGuard action failed: " + m)`. -/
def failWrap (r : Except String Unit) : Outcome :=
  match r with
  | Except.ok _ => Outcome.success
  | Except.error m => Outcome.failed (("WireGuard action failed: ") ++ m)

/-- Embeds `run` (src/src/index.ts lines 224-249).  A non-Linux platform fails
immediately.  Otherwise the inputs are parsed, the interface's existence is
queried (`ip link show`, one command event), and the invocation takes the
add-route path (which cannot throw) or the setup path; on the setup path
`core.getInput("config", .required.)` throws "Input required and not
supplied: config" when the input is absent (empty), and any exception reaching
the top-level catch becomes `setFailed("WireGuard action failed: " + message)`. -/
def run (env : Env) : Outcome × List Event :=
  if env.platformIsLinux then
    let iface := ifaceName env
    let domains := parseInputList (env.inputs ("domains"))
    let ips := parseInputList (env.inputs ("ips"))
    let stripDns := if env.inputs ("strip_dns") = ("false") then false else true
    let checkEv := [Event.cmd ("ip") [("link"), ("show"), iface]]
    if checkInterfaceExists env iface then
      (Outcome.success, checkEv ++ handleAddRouteMode env domains ips iface)
    else
      if env.inputs ("config") = ("") then
        (Outcome.failed (("WireGuard action failed: ")
           ++ ("Input required and not supplied: config")),
         checkEv)
      else
        let s := handleSetupMode env (env.inputs ("config")) domains ips iface stripDns
        (failWrap s.1, checkEv ++ s.2)
  else
    (Outcome.failed ("This action currently supports only Linux runners."), [])

/-- Whether an event is a warning log line. -/
def isWarningEv : Event → Bool
  | Event.warning _ => true
  | _ => false

/-- Whether an event is the fatal `setFailed` signal. -/
def isFatalEv : Event → Bool
  | Event.failed _ => true
  | _ => false

/-- Whether an event is a route-application command: `sudo ip route add ...`
or `sudo ip -6 route add ...`. -/
def isRouteAddEv : Event → Bool
  | Event.cmd p args =>
    decide (p = ("sudo") ∧ (args.take 3 = [("ip"), ("route"), ("add")]
      ∨ args.take 4 = [("ip"), ("-6"), ("route"), ("add")]))
  | _ => false

/-- Concatenation of `f` over a list, in order (spec-side helper used to state
ordering properties of the route batches). -/
def concatMapList (f : α → List β) : List α → List β
  | [] => []
  | a :: l => f a ++ concatMapList f l

namespace Part000

/-- Embeds one family block of `resolveDomainIPs` from the variant
src/unnamed/part_000 (lines 25-43): the DNS promise is awaited directly, with
no timer raced against it; a rejection whose code is neither ENOTFOUND nor
ENODATA logs a warning; ENOTFOUND and ENODATA are silent. -/
def resolveFamily (label domain : String) (o : DnsOutcome) :
    List String × List Event :=
  match o with
  | DnsOutcome.ok addrs _ => (addrs, [])
  | DnsOutcome.err c m _ =>
    if c ≠ ("ENOTFOUND") ∧ c ≠ ("ENODATA") then
      ([], [Event.warning (("Failed to resolve ") ++ label ++ (" for ") ++ domain
             ++ (": ") ++ m)])
    else ([], [])

/-- Milliseconds spent awaiting one family's lookup in the part_000 variant:
with no race against a timer, the `await` returns only when the DNS promise
itself settles, after its full `dnsMs`. -/
def familyWaitMs (o : DnsOutcome) : Nat :=
  dnsMs o

/-- Embeds `resolveDomainIPs` from src/unnamed/part_000 (lines 22-46): both
family results pushed into one list, IPv4 first. -/
def resolveDomainIPs (env : Env) (domain : String) : List String × List Event :=
  let r4 := resolveFamily ("IPv4") domain (env.dns4 domain)
  let r6 := resolveFamily ("IPv6") domain (env.dns6 domain)
  (r4.1 ++ r6.1, r4.2 ++ r6.2)

end Part000

namespace Part001

/-- Embeds one family block of `resolveDomainIPs` from the variant
src/unnamed/part_001 (lines 49-60): the DNS promise is awaited directly, and
every rejection — the error code is not inspected, so ENOTFOUND and ENODATA
included — logs a warning. -/
def resolveFamily (label domain : String) (o : DnsOutcome) :
    List String × List Event :=
  match o with
  | DnsOutcome.ok addrs _ => (addrs, [])
  | DnsOutcome.err _ m _ =>
    ([], [Event.warning (label ++ (" resolution failed for ") ++ domain
           ++ (": ") ++ m)])

/-- Embeds `resolveDomainIPs` from src/unnamed/part_001 (lines 47-62): both
family results pushed into one list, IPv4 first. -/
def resolveDomainIPs (env : Env) (domain : String) : List String × List Event :=
  let r4 := resolveFamily ("IPv4") domain (env.dns4 domain)
  let r6 := resolveFamily ("IPv6") domain (env.dns6 domain)
  (r4.1 ++ r6.1, r4.2 ++ r6.2)

end Part001

/-- Concrete environment: Linux platform, every input absent, every external
command failing, every DNS lookup fulfilling instantly with no addresses,
every ping settling. -/
def env0 : Env :=
  Env.mk true (fun _ => ("")) (fun _ => false)
    (fun _ => DnsOutcome.ok [] 0) (fun _ => DnsOutcome.ok [] 0)
    (fun _ => ProbeOutcome.done) ("tmp")

/-- Concrete environment: like `env0`, but the IPv4 lookup of every domain
rejects with ENOTFOUND and the IPv6 lookup rejects with ENODATA, both
promptly — the "domain has no record of this family" situation. -/
def envNotFound : Env :=
  Env.mk true (fun _ => ("")) (fun _ => false)
    (fun _ => DnsOutcome.err ("ENOTFOUND") ("queryA ENOTFOUND example.com") 10)
    (fun _ => DnsOutcome.err ("ENODATA") ("queryAaaa ENODATA example.com") 10)
    (fun _ => ProbeOutcome.done) ("tmp")

theorem string_data_append (s t : String) : (s ++ t).data = s.data ++ t.data := by
  cases s
  cases t
  rfl

theorem splitCommaAux_append (ys : List Char) :
    ∀ xs acc, splitCommaAux (xs ++ (',') :: ys) acc
      = splitCommaAux xs acc ++ splitCommaAux ys [] := by
  intro xs
  induction xs with
  | nil => intro acc; simp [splitCommaAux]
  | cons c cs ih =>
    intro acc
    by_cases hc : c = (',')
    · simp [splitCommaAux, hc, ih]
    · simp [splitCommaAux, hc, ih]

theorem splitComma_append (a b : List Char) :
    splitComma (a ++ (',') :: b) = splitComma a ++ splitComma b := by
  simp [splitComma, splitCommaAux_append]

theorem parseInputList_append_comma (s : String) :
    parseInputList (s ++ (",") ++ s) = parseInputList s ++ parseInputList s := by
  have hd : (s ++ (",") ++ s).data = s.data ++ (',') :: s.data := by
    rw [string_data_append, string_data_append]
    simp
  simp [parseInputList, hd, splitComma_append]

theorem decide_mk_ne_empty (v : List Char) :
    (decide (String.mk v ≠ (""))) = !v.isEmpty := by
  cases v with
  | nil => decide
  | cons c cs =>
    have h : String.mk (c :: cs) ≠ ("") := by
      intro hc
      have hd : (c :: cs) = ([] : List Char) := congrArg String.data hc
      cases hd
    rw [decide_eq_true h]
    rfl

/-- The claim `c8`: the Input Normalizer returns the comma-separated tokens,
trimmed, with empty tokens removed, order preserved and duplicates kept; empty
input yields the empty sequence.  Conjuncts: the empty string parses to the
empty list; every output token is non-empty and is the trimmed form of one of
the comma-separated fields (soundness); the output is a sublist of the trimmed
field list (so input order is preserved and no occurrence is deduplicated
away); a concrete input with whitespace, an empty field and a duplicate parses
as the claim describes; for every input the output IS the trimmed field list
with its empty entries removed (the full characterization — order,
multiplicity and membership); and every non-empty trimmed field appears in the
output (completeness). -/
theorem c8_parse_input_list :
    parseInputList ("") = []
    ∧ (∀ s t, t ∈ parseInputList s →
        t ≠ ("") ∧ ∃ u, u ∈ splitComma s.data ∧ t = String.mk (trimChars u))
    ∧ (∀ s, List.Sublist (parseInputList s)
        ((splitComma s.data).map (fun u => String.mk (trimChars u))))
    ∧ parseInputList ("a, a ,,b") = [("a"), ("a"), ("b")]
    ∧ (∀ s, parseInputList s
        = ((splitComma s.data).map (fun u => String.mk (trimChars u))).filter
            (fun t => decide (t ≠ (""))))
    ∧ (∀ s u, u ∈ splitComma s.data → (!(trimChars u).isEmpty) = true →
        String.mk (trimChars u) ∈ parseInputList s) := by
  refine ⟨by decide, ?_, ?_, by decide, ?_, ?_⟩
  · intro s t ht
    simp only [parseInputList, List.mem_map, List.mem_filter] at ht
    obtain ⟨v, ⟨⟨u, hu, huv⟩, hq⟩, rfl⟩ := ht
    subst huv
    refine ⟨?_, u, hu, rfl⟩
    intro hc
    have hnil : trimChars u = [] := congrArg String.data hc
    rw [hnil] at hq
    simp at hq
  · intro s
    have h1 : List.Sublist
        (((splitComma s.data).map trimChars).filter (fun t => !t.isEmpty))
        ((splitComma s.data).map trimChars) := List.filter_sublist _
    have h2 := h1.map String.mk
    simpa [parseInputList, List.map_map, Function.comp] using h2
  · intro s
    have hpt : ∀ u ∈ splitComma s.data,
        (!(trimChars u).isEmpty) = (decide (String.mk (trimChars u) ≠ (""))) :=
      fun u _ => (decide_mk_ne_empty (trimChars u)).symm
    simp only [parseInputList, List.filter_map, List.map_map, Function.comp]
    exact congrArg _ (List.filter_congr hpt)
  · intro s u hu hne
    simp only [parseInputList, List.mem_map]
    refine ⟨trimChars u, ?_, rfl⟩
    rw [List.mem_filter]
    exact ⟨List.mem_map_of_mem _ hu, hne⟩

/-- Witness for `c8_parse_input_list` at the concrete input of its fourth
conjunct: the duplicated token is in the output, is non-empty and is the trim
of a field (soundness hypothesis discharged), and the non-empty field "b" of
that input appears in the output (completeness hypotheses discharged). -/
theorem c8_parse_input_list_witness :
    (("a") ∈ parseInputList ("a, a ,,b")
     ∧ (("a") ≠ ("")
        ∧ ∃ u, u ∈ splitComma ("a, a ,,b").data ∧ ("a") = String.mk (trimChars u)))
    ∧ String.mk (trimChars [('b')]) ∈ parseInputList ("a, a ,,b") :=
  ⟨⟨by decide, c8_parse_input_list.2.1 ("a, a ,,b") ("a") (by decide)⟩,
   c8_parse_input_list.2.2.2.2.2 ("a, a ,,b") [('b')] (by decide) (by decide)⟩

/-- Counterexample to the claim `c9`: the output of `parseInputList` is not
de-duplicated — on the input "a,a" the token "a" occurs twice. -/
theorem c9_not_deduplicated :
    parseInputList ("a,a") = [("a"), ("a")]
    ∧ ¬ List.Nodup (parseInputList ("a,a")) :=
  ⟨by decide, by decide⟩

/-- Amended claim `c9`: the Input Normalizer preserves duplicates instead of
removing them — repeating the whole input doubles every token of the output,
and a repeated token appears repeatedly. -/
theorem c9_duplicates_preserved :
    (∀ s : String, parseInputList (s ++ (",") ++ s) = parseInputList s ++ parseInputList s)
    ∧ parseInputList ("x,y,x") = [("x"), ("y"), ("x")] :=
  ⟨parseInputList_append_comma, by decide⟩

/-- The claim `c2`: a colon in the address selects the IPv6 command variant
`ip -6` and the `/128` host mask, its absence the plain `ip` command and the
`/32` host mask, and the applied command is always `sudo` with exactly these
arguments — hence never a mask other than /32 or /128. -/
theorem c2_route_host_exact (env : Env) (ip iface : String) :
    (includesColon ip = true →
      routeArgs ip iface
        = [("ip"), ("-6"), ("route"), ("add"), ip ++ ("/128"), ("dev"), iface])
    ∧ (includesColon ip = false →
      routeArgs ip iface
        = [("ip"), ("route"), ("add"), ip ++ ("/32"), ("dev"), iface])
    ∧ (routeArgs ip iface
        = [("ip"), ("-6"), ("route"), ("add"), ip ++ ("/128"), ("dev"), iface]
      ∨ routeArgs ip iface
        = [("ip"), ("route"), ("add"), ip ++ ("/32"), ("dev"), iface])
    ∧ (addSingleRoute env ip iface).2 = [Event.cmd ("sudo") (routeArgs ip iface)] := by
  by_cases h : includesColon ip = true
  · refine ⟨fun _ => ?_, fun hf => ?_, Or.inl ?_, rfl⟩
    · simp [routeArgs, h]
    · rw [h] at hf; cases hf
    · simp [routeArgs, h]
  · have hf : includesColon ip = false := by
      cases hx : includesColon ip
      · rfl
      · exact absurd hx h
    refine ⟨fun ht => ?_, fun _ => ?_, Or.inr ?_, rfl⟩
    · rw [ht] at hf; cases hf
    · simp [routeArgs, hf]
    · simp [routeArgs, hf]

/-- Witness for `c2_route_host_exact`: the two hypotheses discharged at the
concrete IPv6 literal 2001:db8::1 and the concrete IPv4 literal 10.0.0.5. -/
theorem c2_route_host_exact_witness :
    (includesColon ("2001:db8::1") = true
     ∧ routeArgs ("2001:db8::1") ("wg0")
        = [("ip"), ("-6"), ("route"), ("add"), ("2001:db8::1") ++ ("/128"), ("dev"), ("wg0")])
    ∧ (includesColon ("10.0.0.5") = false
     ∧ routeArgs ("10.0.0.5") ("wg0")
        = [("ip"), ("route"), ("add"), ("10.0.0.5") ++ ("/32"), ("dev"), ("wg0")]) :=
  ⟨⟨by decide, (c2_route_host_exact env0 ("2001:db8::1") ("wg0")).1 (by decide)⟩,
   ⟨by decide, (c2_route_host_exact env0 ("10.0.0.5") ("wg0")).2.1 (by decide)⟩⟩

theorem domainIpLoop_collected (env : Env) (iface domain : String) :
    ∀ ips, (domainIpLoop env iface domain ips).2.1
      = ips.filter (fun ip => routeOk env ip iface) := by
  intro ips
  induction ips with
  | nil => rfl
  | cons ip rest ih =>
    by_cases h : routeOk env ip iface
    · simp only [domainIpLoop, addSingleRoute, execExec, routeOk] at *
      rw [if_pos h]
      simp [List.filter_cons, h, ih]
    · have hf : env.execOk (("sudo") :: routeArgs ip iface) = false := by
        cases hx : env.execOk (("sudo") :: routeArgs ip iface)
        · rfl
        · exact absurd hx h
      simp only [domainIpLoop, addSingleRoute, execExec, routeOk] at *
      rw [if_neg (by simp [hf])]
      simp [List.filter_cons, hf, ih]

theorem domainLoop_collected (env : Env) (iface : String) :
    ∀ ds, (domainLoop env iface ds).2.1
      = concatMapList
          (fun d => ((resolveDomainIPs env d).1).filter (fun ip => routeOk env ip iface))
          ds := by
  intro ds
  induction ds with
  | nil => rfl
  | cons d rest ih =>
    simp only [domainLoop, concatMapList, domainIpLoop_collected, ih]

theorem addRoutesForDomains_collected (env : Env) (domains : List String) (iface : String) :
    (addRoutesForDomains env domains iface).1
      = concatMapList
          (fun d => ((resolveDomainIPs env d).1).filter (fun ip => routeOk env ip iface))
          domains := by
  cases domains with
  | nil => rfl
  | cons d rest =>
    simp only [addRoutesForDomains, List.isEmpty, if_neg]
    exact domainLoop_collected env iface (d :: rest)

/-- The claim `c5`: the combined list handed to the reachability probe is the
domain-derived addresses — domains in input order, and within one domain the
resolved addresses in resolution order, kept when their route applied —
followed by the literal address inputs in input order. -/
theorem c5_combined_order (env : Env) (domains ips : List String) (iface : String) :
    (addRoutes env domains ips iface).1
      = concatMapList
          (fun d => ((resolveDomainIPs env d).1).filter (fun ip => routeOk env ip iface))
          domains
        ++ ips := by
  have h : (addRoutes env domains ips iface).1
      = (addRoutesForDomains env domains iface).1 ++ ips := rfl
  rw [h, addRoutesForDomains_collected]

theorem ipsLoop_spec (env : Env) (iface : String) :
    ∀ ips, (ipsLoop env iface ips).1 = ips.countP (fun ip => routeOk env ip iface)
      ∧ (ipsLoop env iface ips).2.countP isWarningEv
          = ips.countP (fun ip => !(routeOk env ip iface))
      ∧ (ipsLoop env iface ips).2.countP isFatalEv = 0 := by
  intro ips
  induction ips with
  | nil => exact ⟨rfl, rfl, rfl⟩
  | cons ip rest ih =>
    obtain ⟨ih1, ih2, ih3⟩ := ih
    by_cases h : routeOk env ip iface
    · simp only [ipsLoop, addSingleRoute, execExec, routeOk] at *
      rw [if_pos h]
      simp [List.countP_cons, List.countP_append, isWarningEv, isFatalEv, h, ih1, ih2, ih3]
    · have hf : env.execOk (("sudo") :: routeArgs ip iface) = false := by
        cases hx : env.execOk (("sudo") :: routeArgs ip iface)
        · rfl
        · exact absurd hx h
      simp only [ipsLoop, addSingleRoute, execExec, routeOk] at *
      rw [if_neg (by simp [hf])]
      simp [List.countP_cons, List.countP_append, isWarningEv, isFatalEv, hf, ih1, ih2, ih3]

theorem resolveFamily_spec (label domain : String) (o : DnsOutcome) :
    (resolveFamily label domain o).1 = specFamilyAddrs o
    ∧ (resolveFamily label domain o).2.countP isWarningEv
        = (if specFamilyWarns o = true then 1 else 0)
    ∧ (resolveFamily label domain o).2.countP isFatalEv = 0 := by
  cases o with
  | ok addrs ms =>
    by_cases h : ms < 5000
    · simp [resolveFamily, resolveWithTimeout, specFamilyAddrs, specFamilyWarns, h]
    · simp [resolveFamily, resolveWithTimeout, specFamilyAddrs, specFamilyWarns, h,
            isWarningEv, isFatalEv]
  | err c m ms =>
    by_cases h : ms < 5000
    · by_cases hc : c ≠ ("ENOTFOUND") ∧ c ≠ ("ENODATA")
      · simp [resolveFamily, resolveWithTimeout, specFamilyAddrs, specFamilyWarns, h, hc,
              isWarningEv, isFatalEv]
      · simp [resolveFamily, resolveWithTimeout, specFamilyAddrs, specFamilyWarns, h, hc,
              isWarningEv, isFatalEv]
    · simp [resolveFamily, resolveWithTimeout, specFamilyAddrs, specFamilyWarns, h,
            isWarningEv, isFatalEv]

theorem resolveDomainIPs_no_fatal (env : Env) (domain : String) :
    (resolveDomainIPs env domain).2.countP isFatalEv = 0 := by
  have h4 := (resolveFamily_spec ("IPv4") domain (env.dns4 domain)).2.2
  have h6 := (resolveFamily_spec ("IPv6") domain (env.dns6 domain)).2.2
  simp [resolveDomainIPs, List.countP_append, h4, h6]

theorem domainIpLoop_spec (env : Env) (iface domain : String) :
    ∀ ips, (domainIpLoop env iface domain ips).1
        = ips.countP (fun ip => routeOk env ip iface)
      ∧ (domainIpLoop env iface domain ips).2.2.countP isWarningEv
          = ips.countP (fun ip => !(routeOk env ip iface))
      ∧ (domainIpLoop env iface domain ips).2.2.countP isFatalEv = 0 := by
  intro ips
  induction ips with
  | nil => exact ⟨rfl, rfl, rfl⟩
  | cons ip rest ih =>
    obtain ⟨ih1, ih2, ih3⟩ := ih
    by_cases h : routeOk env ip iface
    · simp only [domainIpLoop, addSingleRoute, execExec, routeOk] at *
      rw [if_pos h]
      simp [List.countP_cons, List.countP_append, isWarningEv, isFatalEv, h, ih1, ih2, ih3]
    · have hf : env.execOk (("sudo") :: routeArgs ip iface) = false := by
        cases hx : env.execOk (("sudo") :: routeArgs ip iface)
        · rfl
        · exact absurd hx h
      simp only [domainIpLoop, addSingleRoute, execExec, routeOk] at *
      rw [if_neg (by simp [hf])]
      simp [List.countP_cons, List.countP_append, isWarningEv, isFatalEv, hf, ih1, ih2, ih3]

theorem domainLoop_spec (env : Env) (iface : String) :
    ∀ ds, (domainLoop env iface ds).1
        = (concatMapList (fun d => (resolveDomainIPs env d).1) ds).countP
            (fun ip => routeOk env ip iface)
      ∧ (domainLoop env iface ds).2.2.countP isWarningEv
          = (concatMapList (fun d => (resolveDomainIPs env d).2) ds).countP isWarningEv
            + (concatMapList (fun d => (resolveDomainIPs env d).1) ds).countP
                (fun ip => !(routeOk env ip iface))
      ∧ (domainLoop env iface ds).2.2.countP isFatalEv = 0 := by
  intro ds
  induction ds with
  | nil => exact ⟨rfl, rfl, rfl⟩
  | cons d rest ih =>
    obtain ⟨ih1, ih2, ih3⟩ := ih
    obtain ⟨j1, j2, j3⟩ := domainIpLoop_spec env iface d ((resolveDomainIPs env d).1)
    refine ⟨?_, ?_, ?_⟩
    · simp [domainLoop, concatMapList, List.countP_append, ih1, j1]
    · simp [domainLoop, concatMapList, List.countP_cons, List.countP_append,
            isWarningEv, ih2, j2]
      omega
    · simp [domainLoop, concatMapList, List.countP_cons, List.countP_append,
            isFatalEv, ih3, j3, resolveDomainIPs_no_fatal]

theorem addRoutesForDomains_warnings (env : Env) (iface : String) :
    ∀ domains, (addRoutesForDomains env domains iface).2.countP isWarningEv
      = (concatMapList (fun d => (resolveDomainIPs env d).2) domains).countP isWarningEv
        + (concatMapList (fun d => (resolveDomainIPs env d).1) domains).countP
            (fun ip => !(routeOk env ip iface)) := by
  intro domains
  cases domains with
  | nil => rfl
  | cons d rest =>
    have h := (domainLoop_spec env iface (d :: rest)).2.1
    simp [addRoutesForDomains, List.countP_cons, List.countP_append, isWarningEv, h]

theorem addRoutesForDomains_no_fatal (env : Env) (iface : String) :
    ∀ domains, (addRoutesForDomains env domains iface).2.countP isFatalEv = 0 := by
  intro domains
  cases domains with
  | nil => rfl
  | cons d rest =>
    have h := (domainLoop_spec env iface (d :: rest)).2.2
    simp [addRoutesForDomains, List.countP_cons, List.countP_append, isFatalEv, h]

/-- The claim `c6`: in both route batches every per-address failure is caught
at that address (one warning per failed attempt), processing always reaches
the end of the batch, the reported counts are numbers of successful attempts —
duplicates counted per attempt, not per unique address — and no fatal signal
is ever emitted.  Conjuncts 1-3 cover the literal-address batch
(`addRoutesForIPs`); conjunct 4, concretely, shows the same literal applied
twice with both attempts failing yields two warnings and no fatal signal;
conjuncts 5-7 cover the per-domain inner loop of `addRoutesForDomains`
(count = successful attempts over the resolved addresses, one warning per
failed attempt, no fatal); conjunct 8 gives the whole domain batch's logged
route count as successful attempts over all domains' resolved addresses in
order; conjuncts 9-10 give the domain batch's total warnings (resolver
warnings plus exactly one per failed route attempt) and its freedom from
fatal signals. -/
theorem c6_batch_failures_isolated (env : Env) (ips : List String) (iface : String) :
    (addRoutesForIPs env ips iface).1 = ips.countP (fun ip => routeOk env ip iface)
    ∧ (addRoutesForIPs env ips iface).2.countP isWarningEv
        = ips.countP (fun ip => !(routeOk env ip iface))
    ∧ (addRoutesForIPs env ips iface).2.countP isFatalEv = 0
    ∧ ((addRoutesForIPs env0 [("10.0.0.5"), ("10.0.0.5")] ("wg0")).2.countP isWarningEv = 2
       ∧ (addRoutesForIPs env0 [("10.0.0.5"), ("10.0.0.5")] ("wg0")).2.countP isFatalEv = 0)
    ∧ (∀ domain dips, (domainIpLoop env iface domain dips).1
        = dips.countP (fun ip => routeOk env ip iface))
    ∧ (∀ domain dips, (domainIpLoop env iface domain dips).2.2.countP isWarningEv
        = dips.countP (fun ip => !(routeOk env ip iface)))
    ∧ (∀ domain dips, (domainIpLoop env iface domain dips).2.2.countP isFatalEv = 0)
    ∧ (∀ domains, (domainLoop env iface domains).1
        = (concatMapList (fun d => (resolveDomainIPs env d).1) domains).countP
            (fun ip => routeOk env ip iface))
    ∧ (∀ domains, (addRoutesForDomains env domains iface).2.countP isWarningEv
        = (concatMapList (fun d => (resolveDomainIPs env d).2) domains).countP isWarningEv
          + (concatMapList (fun d => (resolveDomainIPs env d).1) domains).countP
              (fun ip => !(routeOk env ip iface)))
    ∧ (∀ domains, (addRoutesForDomains env domains iface).2.countP isFatalEv = 0) := by
  refine ⟨?_, ?_, ?_, ⟨by decide, by decide⟩,
          fun domain dips => (domainIpLoop_spec env iface domain dips).1,
          fun domain dips => (domainIpLoop_spec env iface domain dips).2.1,
          fun domain dips => (domainIpLoop_spec env iface domain dips).2.2,
          fun domains => (domainLoop_spec env iface domains).1,
          addRoutesForDomains_warnings env iface,
          addRoutesForDomains_no_fatal env iface⟩ <;>
    cases ips with
    | nil => rfl
    | cons ip rest =>
      obtain ⟨h1, h2, h3⟩ := ipsLoop_spec env iface (ip :: rest)
      simp [addRoutesForIPs, List.countP_cons, List.countP_append,
            isWarningEv, isFatalEv, h1, h2, h3]

theorem mem_concatMapList {f : α → List β} {x : β} :
    ∀ {l : List α}, x ∈ concatMapList f l → ∃ a, a ∈ l ∧ x ∈ f a := by
  intro l
  induction l with
  | nil => intro h; cases h
  | cons a rest ih =>
    intro h
    rcases List.mem_append.1 h with h1 | h2
    · exact ⟨a, List.mem_cons_self a rest, h1⟩
    · obtain ⟨b, hb, hx⟩ := ih h2
      exact ⟨b, List.mem_cons_of_mem a hb, hx⟩

/-- The claim `c10`: the combined list returned by `addRoutes` always ends
with the complete literal input list — literal addresses are included whether
or not their route applied — while every domain-derived entry of the list had
a successful route application; concretely (last conjunct) a literal address
whose route-add failed is still among the first three entries sampled by the
probe. -/
theorem c10_literals_always_probed (env : Env) (domains ips : List String) (iface : String) :
    (∃ pre, (addRoutes env domains ips iface).1 = pre ++ ips)
    ∧ ((addRoutesForDomains env domains iface).1.all
        (fun a => routeOk env a iface) = true)
    ∧ ((addRoutes env0 [] [("10.0.0.5")] ("wg0")).1.take 3 = [("10.0.0.5")]
       ∧ routeOk env0 ("10.0.0.5") ("wg0") = false) := by
  refine ⟨⟨(addRoutesForDomains env domains iface).1, rfl⟩, ?_, by decide, by decide⟩
  rw [List.all_eq_true]
  intro a ha
  rw [addRoutesForDomains_collected] at ha
  obtain ⟨d, _, hx⟩ := mem_concatMapList ha
  exact (List.mem_filter.1 hx).2

theorem handleSetupMode_fst_congr (a a' : Bool) (i i' : String → String)
    (x : List String → Bool) (d4 d6 d4' d6' : String → DnsOutcome)
    (p p' : Nat → ProbeOutcome) (t : String) (c : String) (dl il : List String)
    (f : String) (st : Bool) :
    (handleSetupMode (Env.mk a i x d4 d6 p t) c dl il f st).1
      = (handleSetupMode (Env.mk a' i' x d4' d6' p' t) c dl il f st).1 := by
  have hsu : setupWireGuard (Env.mk a i x d4 d6 p t) c f st
      = setupWireGuard (Env.mk a' i' x d4' d6' p' t) c f st := rfl
  simp only [handleSetupMode, hsu]
  cases (setupWireGuard (Env.mk a' i' x d4' d6' p' t) c f st).1 <;> rfl

theorem run_fst_congr (env env' : Env)
    (hp : env.platformIsLinux = env'.platformIsLinux)
    (hi : env.inputs = env'.inputs)
    (hx : env.execOk = env'.execOk)
    (ht : env.tmpDir = env'.tmpDir) :
    (run env).1 = (run env').1 := by
  obtain ⟨a, i, x, d4, d6, p, t⟩ := env
  obtain ⟨a', i', x', d4', d6', p', t'⟩ := env'
  have hp' : a = a' := hp
  have hi' : i = i' := hi
  have hx' : x = x' := hx
  have ht' : t = t' := ht
  subst hp'
  subst hi'
  subst hx'
  subst ht'
  cases a with
  | false => rfl
  | true =>
    simp only [run, checkInterfaceExists, ifaceName]
    split_ifs <;>
      first
        | rfl
        | (show failWrap _ = failWrap _
           apply congrArg
           apply handleSetupMode_fst_congr)

/-- Outcome of `run` is unchanged by any change of the ping oracle alone. -/
theorem run_fst_withPing (env : Env) (f : Nat → ProbeOutcome) :
    (run (withPing env f)).1 = (run env).1 :=
  run_fst_congr (withPing env f) env rfl rfl rfl rfl

/-- Outcome of `run` is unchanged by any change of the DNS oracles alone. -/
theorem run_fst_withDns (env : Env) (f4 f6 : String → DnsOutcome) :
    (run (withDns env f4 f6)).1 = (run env).1 :=
  run_fst_congr (withDns env f4 f6) env rfl rfl rfl rfl

/-- Counterexample to the claim `c3` on the variant resolver of
src/unnamed/part_001 (cited by the claim): with both lookups of example.com
rejecting with the not-found / no-data codes ENOTFOUND and ENODATA, the main
implementation's `resolveDomainIPs` (src/src/index.ts) surfaces no warning, but
the part_001 `resolveDomainIPs` surfaces one warning per family — a not-found
outcome does produce warnings there, contradicting the claim's "produces no
warning". -/
theorem c3_variant_warns_on_notfound :
    (resolveDomainIPs envNotFound ("example.com")).2 = []
    ∧ (Part001.resolveDomainIPs envNotFound ("example.com")).2
        = [Event.warning ("IPv4 resolution failed for example.com: queryA ENOTFOUND example.com"),
           Event.warning ("IPv6 resolution failed for example.com: queryAaaa ENODATA example.com")]
    ∧ (Part001.resolveDomainIPs envNotFound ("example.com")).2 ≠ [] :=
  ⟨by decide, by decide, by decide⟩

/-- Amended claim `c3`, proved of the main implementation
(src/src/index.ts): resolution returns the IPv4 successes followed by the
IPv6 successes (the union of the two independent lookups, possibly empty),
surfaces exactly one warning per family that failed for a reason other than
not-found / no-data (timeouts included) and none for a family that succeeded
or had no record, never emits a fatal signal, and the invocation outcome is
independent of every DNS outcome; the part_001 variant, by contrast, warns on
every rejection, the not-found codes included (last conjunct). -/
theorem c3_resolution_union_and_warnings :
    (∀ env domain,
      (resolveDomainIPs env domain).1
        = specFamilyAddrs (env.dns4 domain) ++ specFamilyAddrs (env.dns6 domain))
    ∧ (∀ env domain,
      (resolveDomainIPs env domain).2.countP isWarningEv
        = (if specFamilyWarns (env.dns4 domain) = true then 1 else 0)
          + (if specFamilyWarns (env.dns6 domain) = true then 1 else 0))
    ∧ (∀ env domain, (resolveDomainIPs env domain).2.countP isFatalEv = 0)
    ∧ (∀ env f4 f6, (run (withDns env f4 f6)).1 = (run env).1)
    ∧ (∀ label domain c m ms,
      (Part001.resolveFamily label domain (DnsOutcome.err c m ms)).2
        = [Event.warning (label ++ (" resolution failed for ") ++ domain ++ (": ") ++ m)]) := by
  refine ⟨?_, ?_, ?_, run_fst_withDns, fun _ _ _ _ _ => rfl⟩
  · intro env domain
    have h4 := (resolveFamily_spec ("IPv4") domain (env.dns4 domain)).1
    have h6 := (resolveFamily_spec ("IPv6") domain (env.dns6 domain)).1
    simp [resolveDomainIPs, h4, h6]
  · intro env domain
    have h4 := (resolveFamily_spec ("IPv4") domain (env.dns4 domain)).2.1
    have h6 := (resolveFamily_spec ("IPv6") domain (env.dns6 domain)).2.1
    simp [resolveDomainIPs, List.countP_append, h4, h6]
  · intro env domain
    have h4 := (resolveFamily_spec ("IPv4") domain (env.dns4 domain)).2.2
    have h6 := (resolveFamily_spec ("IPv6") domain (env.dns6 domain)).2.2
    simp [resolveDomainIPs, List.countP_append, h4, h6]

/-- Counterexample to the claim `c7` on the variant resolver of
src/unnamed/part_000 (cited by the claim): that resolver awaits each lookup
with no timer raced against it, so a lookup that settles only after one hour
is awaited for the full hour — not bounded by any fixed few-second timeout —
and no timeout warning is produced; the main implementation cuts the same
lookup off at 5000 ms (last conjunct). -/
theorem c7_variant_lookup_unbounded :
    Part000.familyWaitMs (DnsOutcome.ok [("1.2.3.4")] 3600000) = 3600000
    ∧ ¬ (Part000.familyWaitMs (DnsOutcome.ok [("1.2.3.4")] 3600000) ≤ 5000)
    ∧ Part000.resolveFamily ("IPv4") ("example.com") (DnsOutcome.ok [("1.2.3.4")] 3600000)
        = ([("1.2.3.4")], [])
    ∧ resolveWaitMs (DnsOutcome.ok [("1.2.3.4")] 3600000) = 5000 :=
  ⟨rfl, by decide, by decide, by decide⟩

/-- Amended claim `c7`, proved of the main implementation (src/src/index.ts):
each per-family lookup is raced against a fixed 5000 ms timer, so the await is
bounded by 5000 ms; when the timer elapses first the family yields zero
results and surfaces a "timed out" warning; and the invocation outcome is
independent of every DNS outcome, so a timeout never fails the invocation.
The src/unnamed/part_000 variant has no such bound (see the counterexample). -/
theorem c7_lookup_timeout_bounded :
    (∀ o, resolveWaitMs o ≤ 5000)
    ∧ (∀ label domain o, 5000 ≤ dnsMs o →
        resolveFamily label domain o
          = ([], [Event.warning (label ++ (" resolution for ") ++ domain ++ (" timed out"))]))
    ∧ (∀ env f4 f6, (run (withDns env f4 f6)).1 = (run env).1) := by
  refine ⟨fun o => Nat.min_le_right _ _, ?_, run_fst_withDns⟩
  intro label domain o h
  have hn : ¬ dnsMs o < 5000 := Nat.not_lt.2 h
  cases o with
  | ok addrs ms =>
    simp only [dnsMs] at hn
    simp [resolveFamily, resolveWithTimeout, hn]
  | err c m ms =>
    simp only [dnsMs] at hn
    simp [resolveFamily, resolveWithTimeout, hn]

/-- Witness for `c7_lookup_timeout_bounded`: its timeout hypothesis
discharged at a concrete lookup settling after 6000 ms. -/
theorem c7_lookup_timeout_bounded_witness :
    5000 ≤ dnsMs (DnsOutcome.ok [("1.2.3.4")] 6000)
    ∧ resolveFamily ("IPv4") ("example.com") (DnsOutcome.ok [("1.2.3.4")] 6000)
        = ([], [Event.warning (("IPv4") ++ (" resolution for ") ++ ("example.com")
            ++ (" timed out"))]) :=
  ⟨by decide,
   c7_lookup_timeout_bounded.2.1 ("IPv4") ("example.com")
     (DnsOutcome.ok [("1.2.3.4")] 6000) (by decide)⟩

/-- The claim `c4`: the reachability probe depends only on the first three
addresses of the combined list (`slice(0, 3)`), and no ping outcome — failure
or timeout included — changes the invocation's overall outcome. -/
theorem c4_probe_bounded_and_harmless :
    (∀ env ips, testConnectivity env ips = testConnectivity env (ips.take 3))
    ∧ (∀ env f, (run (withPing env f)).1 = (run env).1) := by
  refine ⟨?_, run_fst_withPing⟩
  intro env ips
  cases ips with
  | nil => rfl
  | cons a l =>
    simp [testConnectivity, List.take_take]

/-- The claim `c1`: when the tunnel interface does not exist and the `config`
input is not supplied, the invocation ends with a fatal descriptive failure —
the platform message, or the required-input message wrapped by the top-level
catch — and its event trace contains no route-application command at all. -/
theorem c1_missing_config_is_fatal (env : Env)
    (hIface : checkInterfaceExists env (ifaceName env) = false)
    (hCfg : env.inputs ("config") = ("")) :
    ((run env).1 = Outcome.failed ("This action currently supports only Linux runners.")
      ∨ (run env).1 = Outcome.failed (("WireGuard action failed: ")
          ++ ("Input required and not supplied: config")))
    ∧ (run env).2.countP isRouteAddEv = 0 := by
  have hr : isRouteAddEv (Event.cmd ("ip") [("link"), ("show"), ifaceName env]) = false := by
    simp only [isRouteAddEv]
    exact decide_eq_false (fun hc => absurd hc.1 (by decide))
  cases hp : env.platformIsLinux with
  | false =>
    constructor
    · exact Or.inl (by simp [run, hp])
    · simp [run, hp]
  | true =>
    constructor
    · exact Or.inr (by simp [run, hp, hIface, hCfg])
    · simp [run, hp, hIface, hCfg, List.countP_cons, hr]

/-- Witness for `c1_missing_config_is_fatal`: its hypotheses discharged at
the concrete environment `env0`, where `ip link show wg0` exits non-zero and
every input is absent. -/
theorem c1_missing_config_is_fatal_witness :
    checkInterfaceExists env0 (ifaceName env0) = false
    ∧ env0.inputs ("config") = ("")
    ∧ (((run env0).1 = Outcome.failed ("This action currently supports only Linux runners.")
         ∨ (run env0).1 = Outcome.failed (("WireGuard action failed: ")
             ++ ("Input required and not supplied: config")))
       ∧ (run env0).2.countP isRouteAddEv = 0) :=
  ⟨rfl, rfl, c1_missing_config_is_fatal env0 rfl rfl⟩

end Wg

